import Mathlib

/-!
Shallow embedding of the Action Tracking & Recommendation subsystem of the
repository (src/src/action-tracker.ts, class `ActionTracker`).

Modelling conventions:
* The Neo4j graph store is represented explicitly as lists of nodes and edges
  (`GraphStore`).  Each Cypher query issued by the source is translated into a
  pure function over that representation, keeping the join/filter/aggregation
  structure of the query text.
* JSON payloads (`parameters`, `result`) are an inductive `Json` type; the
  JavaScript runtime's `JSON.stringify` / `JSON.parse` are external built-ins
  and are passed in as a `JsRuntime` record (a failed `JSON.parse` throws in
  JS, modelled by `Option`).
* `apoc.text.jaroWinklerDistance` is the Jaro-Winkler similarity provided by
  the store (APOC delegates to Apache Commons); it is implemented here over ℚ
  (the IEEE-double arithmetic of the original is idealised as exact rational
  arithmetic) following the Commons matching algorithm.
* ISO-8601 timestamps (always UTC, produced by `new Date().toISOString()`)
  compare lexicographically exactly as they compare chronologically; they are
  modelled as `Nat` seconds.  Neo4j's `duration.between(a, b)` normalises the
  difference into months, days and seconds groups, and the `.minutes`
  accessor reads only the seconds group; for differences under one month
  (months component 0) this is `(d % 86400) / 60`, which is how it is
  modelled here (`minutesComponent`).
* `uuidv4()` is modelled by a per-process counter (`nextUuid`) supplying
  fresh identifiers, and `new Date()` by an explicit `now` argument.
-/

/-- JSON values handed to the tracker by the caller (arbitrary structured
payloads; the source types them as `Record<string, any>` / `any`). -/
inductive Json where
  | null
  | bool (b : Bool)
  | num (n : Int)
  | str (s : String)
  | arr (elems : List Json)
  | obj (fields : List (String × Json))

/-- The JavaScript runtime services used by the tracker: `JSON.stringify`
(total in the source for the payloads involved) and `JSON.parse` (throws on
malformed input, modelled as `Option`). -/
structure JsRuntime where
  stringify : Json → String
  parse : String → Option Json

/-! ### Jaro-Winkler similarity (`apoc.text.jaroWinklerDistance`)

The store-side similarity function used by `findSimilarActions` and
`suggestNextAction`.  APOC delegates to Apache Commons; the algorithm below
follows that implementation: greedy window matching of the shorter string
against the longer, transposition count over the matched subsequences, the
Jaro score, and the Winkler common-prefix boost (applied when the Jaro score
is at least 0.7). -/

/-- Find the first index `j` of `mx` in the window `[lo, hi]` that is not yet
matched (`flags j = false`) and holds character `c` (the inner loop of the
Commons matching routine). -/
def jwFind (c : Char) (mx : List Char) (flags : Nat → Bool) (lo hi : Nat) : Option Nat :=
  (List.range mx.length).find? fun j =>
    decide (lo ≤ j) && decide (j ≤ hi) && !(flags j) && decide (mx[j]? = some c)

/-- Scan the shorter string `mn` (remaining suffix given as the list
argument, current index `i`), greedily matching each character into the
longer string `mx` within window radius `d`; returns the matched
(character, index-in-`mx`) pairs in scan order. -/
def jwScanAux (mx : List Char) (d : Nat) :
    List Char → Nat → (Nat → Bool) → List (Char × Nat) → List (Char × Nat)
  | [], _, _, acc => acc.reverse
  | c :: cs, i, flags, acc =>
    match jwFind c mx flags (i - d) (i + d) with
    | some j => jwScanAux mx d cs (i + 1) (fun j2 => if j2 = j then true else flags j2) ((c, j) :: acc)
    | none => jwScanAux mx d cs (i + 1) flags acc

/-- Matched pairs for the pair of strings, window radius `max/2 - 1`
(saturating at 0, as in the source's `Math.max(max.length()/2 - 1, 0)`). -/
def jwPairs (mn mx : List Char) : List (Char × Nat) :=
  jwScanAux mx (mx.length / 2 - 1) mn 0 (fun _ => false) []

/-- The matched characters of the longer string, read off in index order
(the source scans the match flags in ascending index order). -/
def jwRight (mx : List Char) (ps : List (Char × Nat)) : List Char :=
  ((List.range mx.length).filter (fun j => ps.any (fun p => p.2 == j))).filterMap
    (fun j => mx[j]?)

/-- Transposition count: positions where the two matched subsequences
disagree, halved (integer division), as in the Commons routine. -/
def jwTransCount (mx : List Char) (ps : List (Char × Nat)) : Nat :=
  (((ps.map Prod.fst).zip (jwRight mx ps)).filter (fun p => !(p.1 == p.2))).length / 2

/-- Length of the common prefix of two strings (used for the Winkler boost,
capped at 4 at the use site). -/
def commonPrefixLen : List Char → List Char → Nat
  | a :: as, b :: bs => if a = b then commonPrefixLen as bs + 1 else 0
  | _, _ => 0

/-- The shorter of the two character lists (ties resolved as in the source:
the first argument). -/
def jwMin (l1 l2 : List Char) : List Char := if l1.length > l2.length then l2 else l1

/-- The longer of the two character lists. -/
def jwMax (l1 l2 : List Char) : List Char := if l1.length > l2.length then l1 else l2

/-- The Jaro score `(m/|s1| + m/|s2| + (m - t)/m) / 3`. -/
def jaroScore (len1 len2 m t : Nat) : ℚ :=
  ((m : ℚ) / (len1 : ℚ) + (m : ℚ) / (len2 : ℚ) + ((m : ℚ) - (t : ℚ)) / (m : ℚ)) / 3

/-- The Winkler common-prefix boost, applied when the Jaro score reaches
0.7 (scaling factor 0.1, prefix capped at 4). -/
def winklerBoost (pl : Nat) (j : ℚ) : ℚ :=
  if j < 7 / 10 then j else j + (min pl 4 : ℚ) * (1 / 10) * (1 - j)

/-- Jaro-Winkler similarity of two strings, in `[0, 1]`; `1` for equal
nonempty strings.  Mirrors the Apache Commons implementation backing
`apoc.text.jaroWinklerDistance` (score 0 when nothing matches). -/
def jaroWinklerDistance (s1 s2 : String) : ℚ :=
  if (jwPairs (jwMin s1.toList s2.toList) (jwMax s1.toList s2.toList)).length = 0 then 0
  else
    winklerBoost (commonPrefixLen s1.toList s2.toList)
      (jaroScore s1.toList.length s2.toList.length
        (jwPairs (jwMin s1.toList s2.toList) (jwMax s1.toList s2.toList)).length
        (jwTransCount (jwMax s1.toList s2.toList)
          (jwPairs (jwMin s1.toList s2.toList) (jwMax s1.toList s2.toList))))

/-! #### Jaro-Winkler: equal strings score 1 -/

/-- `find?` over `range' s len` returns the least satisfying index. -/
theorem find?_range'_eq (p : Nat → Bool) :
    ∀ (len s k : Nat), s ≤ k → k < s + len → p k = true →
      (∀ j, s ≤ j → j < k → p j = false) → (List.range' s len).find? p = some k := by
  intro len
  induction len with
  | zero => intro s k hsk hk _ _; omega
  | succ n ih =>
    intro s k hsk hk hpk hlt
    rw [List.range'_succ]
    rcases Nat.eq_or_lt_of_le hsk with heq | hlt'
    · subst heq; rw [List.find?_cons_of_pos _ hpk]
    · rw [List.find?_cons_of_neg]
      · exact ih (s + 1) k hlt' (by omega) hpk (fun j h1 h2 => hlt j (by omega) h2)
      · simp only [Bool.not_eq_true]
        exact hlt s (Nat.le_refl s) hlt'

/-- `find?` over `range n` returns the least satisfying index. -/
theorem find?_range_eq (p : Nat → Bool) (n k : Nat) (hk : k < n) (hpk : p k = true)
    (hlt : ∀ j, j < k → p j = false) : (List.range n).find? p = some k := by
  rw [List.range_eq_range']
  exact find?_range'_eq p n 0 k (Nat.zero_le k) (by omega) hpk (fun j _ h2 => hlt j h2)

/-- The pairs `(l[k], k), (l[k+1], k+1), …` — the expected match list when a
string is compared with itself. -/
def idxPairs : List Char → Nat → List (Char × Nat)
  | [], _ => []
  | c :: cs, k => (c, k) :: idxPairs cs (k + 1)

theorem idxPairs_map_fst (l : List Char) : ∀ k, (idxPairs l k).map Prod.fst = l := by
  induction l with
  | nil => intro k; rfl
  | cons c cs ih => intro k; simp [idxPairs, ih]

theorem idxPairs_length (l : List Char) : ∀ k, (idxPairs l k).length = l.length := by
  induction l with
  | nil => intro k; rfl
  | cons c cs ih => intro k; simp [idxPairs, ih]

theorem idxPairs_any_snd (l : List Char) :
    ∀ k j, k ≤ j → j < k + l.length → ((idxPairs l k).any fun p => p.2 == j) = true := by
  induction l with
  | nil => intro k j h1 h2; simp only [List.length_nil] at h2; omega
  | cons c cs ih =>
    intro k j h1 h2
    simp only [idxPairs, List.any_cons, Bool.or_eq_true, beq_iff_eq]
    rcases Nat.eq_or_lt_of_le h1 with heq | hlt
    · exact Or.inl heq
    · refine Or.inr (ih (k + 1) j hlt ?_)
      simp only [List.length_cons] at h2
      omega

/-- When comparing a string against itself, `jwFind` at index `k` finds
exactly position `k` (all earlier positions are already matched). -/
theorem jwFind_self (l : List Char) (d k : Nat) (c : Char) (hc : l[k]? = some c) :
    jwFind c l (fun j => decide (j < k)) (k - d) (k + d) = some k := by
  have hk : k < l.length := by
    by_contra h
    rw [List.getElem?_eq_none (by omega)] at hc
    exact Option.noConfusion hc
  unfold jwFind
  apply find?_range_eq _ _ _ hk
  · simp [hc, Nat.sub_le, Nat.le_add_right]
  · intro j hj
    simp [hj]

/-- Self-comparison scan invariant: starting at index `k` with exactly the
first `k` positions matched, the scan matches each remaining character to
its own position. -/
theorem jwScanAux_self (l : List Char) (d : Nat) :
    ∀ (cs : List Char) (k : Nat) (acc : List (Char × Nat)), l.drop k = cs →
      jwScanAux l d cs k (fun j => decide (j < k)) acc = acc.reverse ++ idxPairs cs k := by
  intro cs
  induction cs with
  | nil => intro k acc _; simp [jwScanAux, idxPairs]
  | cons c cs2 ih =>
    intro k acc hdrop
    have hget : l[k]? = some c := by
      have := List.getElem?_drop l k 0
      rw [hdrop] at this
      simpa using this.symm
    have hdrop2 : l.drop (k + 1) = cs2 := by
      have := List.drop_drop 1 k l
      rw [hdrop] at this
      simpa using this.symm
    simp only [jwScanAux, jwFind_self l d k c hget]
    have hflags : (fun j2 => if j2 = k then true else decide (j2 < k)) =
        (fun j => decide (j < k + 1)) := by
      funext j2
      by_cases h : j2 = k
      · simp [h]

      · simp only [if_neg h, decide_eq_decide]
        omega
    rw [hflags, ih (k + 1) ((c, k) :: acc) hdrop2]
    simp [idxPairs]

/-- Comparing a string with itself matches every character to its own
position. -/
theorem jwPairs_self (l : List Char) : jwPairs l l = idxPairs l 0 := by
  unfold jwPairs
  have h0 : (fun _ : Nat => false) = (fun j => decide (j < 0)) := by
    funext j; simp
  rw [h0, jwScanAux_self l (l.length / 2 - 1) l 0 [] (by simp)]
  rfl

theorem filterMap_getElem?_range' {α : Type} (l : List α) :
    ∀ (len s : Nat), s + len = l.length →
      (List.range' s len).filterMap (fun j => l[j]?) = l.drop s := by
  intro len
  induction len with
  | zero =>
    intro s hs
    have h1 : l.length ≤ s := by omega
    simp [List.drop_eq_nil_of_le h1]
  | succ n ih =>
    intro s hs
    have hsl : s < l.length := by omega
    rw [List.range'_succ]
    simp only [List.filterMap_cons]
    rw [List.getElem?_eq_getElem hsl]
    rw [ih (s + 1) (by omega), List.drop_eq_getElem_cons hsl]

/-- The matched subsequence of the right string under self-comparison is the
whole string. -/
theorem jwRight_self (l : List Char) : jwRight l (idxPairs l 0) = l := by
  unfold jwRight
  have hfilter : (List.range l.length).filter
      (fun j => (idxPairs l 0).any fun p => p.2 == j) = List.range l.length := by
    rw [List.filter_eq_self]
    intro j hj
    rw [List.mem_range] at hj
    exact idxPairs_any_snd l 0 j (Nat.zero_le j) (by omega)
  rw [hfilter, List.range_eq_range', filterMap_getElem?_range' l l.length 0 (by omega)]
  simp

theorem zip_self_filter_ne {α : Type} [BEq α] [LawfulBEq α] (l : List α) :
    ((l.zip l).filter fun p => !(p.1 == p.2)) = [] := by
  induction l with
  | nil => rfl
  | cons a as ih => simpa [List.zip_cons_cons, List.filter_cons] using ih

/-- Self-comparison has no transpositions. -/
theorem jwTransCount_self (l : List Char) : jwTransCount l (idxPairs l 0) = 0 := by
  unfold jwTransCount
  rw [jwRight_self, idxPairs_map_fst, zip_self_filter_ne]
  rfl

theorem jwMin_self (l : List Char) : jwMin l l = l := by
  unfold jwMin
  simp

theorem jwMax_self (l : List Char) : jwMax l l = l := by
  unfold jwMax
  simp

/-- The Jaro score of a full match with no transpositions is 1. -/
theorem jaroScore_self (n : Nat) (hn : n ≠ 0) : jaroScore n n n 0 = 1 := by
  have hq : (n : ℚ) ≠ 0 := Nat.cast_ne_zero.mpr hn
  unfold jaroScore
  rw [Nat.cast_zero, sub_zero]
  simp only [div_self hq]
  norm_num

/-- The Winkler boost fixes a Jaro score of 1. -/
theorem winklerBoost_one (pl : Nat) : winklerBoost pl 1 = 1 := by
  unfold winklerBoost
  rw [if_neg (by norm_num)]
  ring

/-- `apoc.text.jaroWinklerDistance` scores a nonempty string against itself
as exactly 1. -/
theorem jaroWinklerDistance_self (s : String) (hs : s.toList ≠ []) :
    jaroWinklerDistance s s = 1 := by
  have hne : s.toList.length ≠ 0 := by
    intro h
    exact hs (List.length_eq_zero.mp h)
  unfold jaroWinklerDistance
  rw [jwMin_self, jwMax_self, jwPairs_self, jwTransCount_self, idxPairs_length,
    if_neg hne, jaroScore_self _ hne, winklerBoost_one]

/-! ### Graph store data model (§ DATA MODEL; the Neo4j node labels and
relationship types used by the Cypher text in `action-tracker.ts`) -/

/-- `(:User {id, name, createdAt})`. -/
structure UserNode where
  id : String
  name : String
  createdAt : Nat

/-- `(:MCP {id, type, name, createdAt})` — the backend node. -/
structure MCPNode where
  id : String
  type : String
  name : String
  createdAt : Nat

/-- `(:Action {id, type, name, parameters, result, status, timestamp})`.
`parameters` and `result` hold the `JSON.stringify` serialisations; `id` is
the generated UUID (modelled as `Nat`); `timestamp` the recorder-assigned
ISO-8601 instant (modelled as `Nat` seconds). -/
structure ActionNode where
  id : Nat
  type : String
  name : String
  parameters : String
  result : String
  status : String
  timestamp : Nat

/-- The graph store contents: node lists plus `PERFORMED` edges
`(userId, actionId)` and `USED` edges `(actionId, mcpId)`. -/
structure GraphStore where
  users : List UserNode
  mcps : List MCPNode
  actions : List ActionNode
  performed : List (String × Nat)
  used : List (Nat × String)

def emptyStore : GraphStore := ⟨[], [], [], [], []⟩

/-- The `ActionTracker` instance state: the `enabled` flag (the source pairs
it with a nullable `driver`; the two are always set together, so one flag
suffices), the store it talks to, and the `uuidv4()` supply counter. -/
structure Tracker where
  enabled : Bool
  store : GraphStore
  nextUuid : Nat

/-- JavaScript truthiness of an optional string constructor argument
(`undefined` and `""` are falsy). -/
def truthy : Option String → Bool
  | none => false
  | some s => !(s == "")

/-- The constructor: `new ActionTracker(uri?, username?, password?)` —
enabled exactly when all three parameters are truthy; no connection is
attempted either way (driver construction is lazy). -/
def mkTracker (uri username password : Option String) : Tracker :=
  { enabled := truthy uri && truthy username && truthy password
    store := emptyStore
    nextUuid := 0 }

/-- `connect()`: skips entirely when disabled; otherwise verifies
connectivity and initialises the schema (6 store round-trips), or on
failure disables the tracker for good.  Returns the new tracker state and
the number of store accesses. -/
def connect (t : Tracker) (connectivityOk : Bool) : Tracker × Nat :=
  if t.enabled then
    if connectivityOk then (t, 6)
    else ({ t with enabled := false }, 1)
  else (t, 0)

/-- `MERGE (user:User {id: $userId}) ON CREATE SET user.name = $userName,
user.createdAt = $timestamp` — attributes are written only when the node is
first created. -/
def upsertUser (g : GraphStore) (userId userName : String) (ts : Nat) : GraphStore :=
  if g.users.any (fun u => u.id == userId) then g
  else { g with users := g.users ++ [⟨userId, userName, ts⟩] }

/-- `MERGE (mcp:MCP {id: $mcpId}) ON CREATE SET …` — same upsert for the
backend node. -/
def upsertMcp (g : GraphStore) (mcpId mcpType mcpName : String) (ts : Nat) : GraphStore :=
  if g.mcps.any (fun m => m.id == mcpId) then g
  else { g with mcps := g.mcps ++ [⟨mcpId, mcpType, mcpName, ts⟩] }

/-- The caller-supplied record for one tool invocation (the argument object
of `recordAction`). -/
structure RecordArgs where
  userId : String
  userName : String
  mcpId : String
  mcpType : String
  mcpName : String
  actionType : String
  actionName : String
  parameters : Json
  result : Json
  status : String

/-- Result object of `recordAction`. -/
structure RecordResult where
  success : Bool
  actionId : Option Nat
  message : String

/-- Output of `recordAction`: the result object, the tracker state after the
call, and the number of store accesses performed. -/
structure RecordOut where
  res : RecordResult
  tracker : Tracker
  accesses : Nat

/-- The single atomic Cypher write of `recordAction`: upsert the User and
MCP nodes, then create the Action node together with its `PERFORMED` and
`USED` edges, all in one statement (one transaction). -/
def recordWrite (g : GraphStore) (a : RecordArgs) (rt : JsRuntime)
    (now actionId : Nat) : GraphStore :=
  let g2 := upsertMcp (upsertUser g a.userId a.userName now)
    a.mcpId a.mcpType a.mcpName now
  { g2 with
    actions := g2.actions ++
      [⟨actionId, a.actionType, a.actionName, rt.stringify a.parameters,
        rt.stringify a.result, a.status, now⟩]
    performed := g2.performed ++ [(a.userId, actionId)]
    used := g2.used ++ [(actionId, a.mcpId)] }

/-- `recordAction`: when disabled, returns success with a fresh (unstored)
UUID and the disabled message, touching no store.  When enabled it runs the
single atomic write `recordWrite`.  `writeOk` models whether the store
accepted the transaction (a thrown store error is caught and reported as a
failure result; the transaction rolls back, leaving the store unchanged). -/
def recordAction (t : Tracker) (a : RecordArgs) (rt : JsRuntime) (now : Nat)
    (writeOk : Bool) : RecordOut :=
  if t.enabled then
    if writeOk then
      ⟨⟨true, some t.nextUuid, "Action recorded successfully"⟩,
        { t with store := recordWrite t.store a rt now t.nextUuid,
                 nextUuid := t.nextUuid + 1 }, 1⟩
    else
      ⟨⟨false, none, "Failed to record action: error"⟩,
        { t with nextUuid := t.nextUuid + 1 }, 1⟩
  else
    ⟨⟨true, some t.nextUuid, "Action tracking is disabled - action not recorded"⟩,
      { t with nextUuid := t.nextUuid + 1 }, 0⟩

/-! ### Query embeddings -/

/-- All-or-nothing mapping: the source runs `JSON.parse` inside
`result.records.map(...)` within the `try` block, so one malformed record
aborts the whole mapping (caught by the surrounding `catch`). -/
def mapOpt {α β : Type} (f : α → Option β) : List α → Option (List β)
  | [] => some []
  | a :: as =>
    match f a, mapOpt f as with
    | some b, some bs => some (b :: bs)
    | _, _ => none

/-- Rows of `MATCH (action:Action)-[:USED]->(mcp:MCP)`: one row per `USED`
edge joined to its endpoint nodes. -/
def usedRows (g : GraphStore) : List (ActionNode × MCPNode) :=
  g.used.flatMap fun e =>
    (g.actions.filter (fun a => a.id == e.1)).flatMap fun a =>
      (g.mcps.filter (fun m => m.id == e.2)).map fun m => (a, m)

/-- An Action with `parameters`/`result` deserialised back to structured
form (the record mapping in the source spreads the node properties and
overrides the two serialized fields). -/
structure ParsedAction where
  id : Nat
  type : String
  name : String
  parameters : Json
  result : Json
  status : String
  timestamp : Nat

/-- One entry of `findSimilarActions`' result list. -/
structure SimilarEntry where
  action : ParsedAction
  mcp : MCPNode
  similarity : ℚ

/-- Result object of `findSimilarActions`. -/
structure FindSimilarResult where
  success : Bool
  similarActions : Option (List SimilarEntry)
  message : Option String

/-- The scored candidate rows of `findSimilarActions`: filter to matching
backend type and action type, score each candidate's stored parameters
against the serialized query parameters, and keep similarity > 0.7. -/
def similarScored (g : GraphStore) (paramsJson mcpType actionType : String) :
    List (ActionNode × MCPNode × ℚ) :=
  (((usedRows g).filter fun r => r.2.type == mcpType && r.1.type == actionType).map
      fun r => (r.1, r.2, jaroWinklerDistance paramsJson r.1.parameters)).filter
    fun r => decide (r.2.2 > 7 / 10)

/-- `ORDER BY similarity DESC, action.timestamp DESC LIMIT $limit`. -/
def similarLimited (g : GraphStore) (paramsJson mcpType actionType : String)
    (limit : Nat) : List (ActionNode × MCPNode × ℚ) :=
  ((similarScored g paramsJson mcpType actionType).mergeSort fun x y =>
      decide (y.2.2 < x.2.2) ||
        (decide (x.2.2 = y.2.2) && decide (y.1.timestamp ≤ x.1.timestamp))).take limit

/-- Deserialise one returned record (`JSON.parse` on the stored
`parameters` and `result`). -/
def parseSimilarEntry (rt : JsRuntime) (r : ActionNode × MCPNode × ℚ) :
    Option SimilarEntry :=
  match rt.parse r.1.parameters, rt.parse r.1.result with
  | some p, some q =>
    some ⟨⟨r.1.id, r.1.type, r.1.name, p, q, r.1.status, r.1.timestamp⟩, r.2.1, r.2.2⟩
  | _, _ => none

/-- `findSimilarActions({mcpType, actionType, parameters, limit = 5})`
(returns the result object and the store-access count). -/
def findSimilarActions (t : Tracker) (rt : JsRuntime) (mcpType actionType : String)
    (parameters : Json) (limit : Nat) : FindSimilarResult × Nat :=
  if t.enabled then
    match mapOpt (parseSimilarEntry rt)
        (similarLimited t.store (rt.stringify parameters) mcpType actionType limit) with
    | some es => (⟨true, some es, none⟩, 1)
    | none => (⟨false, none, some "Failed to find similar actions: error"⟩, 1)
  else
    (⟨false, none, some "Action tracking is disabled - cannot find similar actions"⟩, 0)

/-- One entry of `getUserActionHistory`'s result list. -/
structure HistoryEntry where
  action : ParsedAction
  mcp : MCPNode

/-- Result object of `getUserActionHistory`. -/
structure HistoryResult where
  success : Bool
  actions : Option (List HistoryEntry)
  message : Option String

/-- Rows of `MATCH (user:User {id: $userId})-[:PERFORMED]->(action:Action)
-[:USED]->(mcp:MCP)`. -/
def historyRows (g : GraphStore) (userId : String) : List (ActionNode × MCPNode) :=
  (g.users.filter (fun u => u.id == userId)).flatMap fun u =>
    (g.performed.filter (fun pe => pe.1 == u.id)).flatMap fun pe =>
      (g.actions.filter (fun a => a.id == pe.2)).flatMap fun a =>
        (g.used.filter (fun ue => ue.1 == a.id)).flatMap fun ue =>
          (g.mcps.filter (fun m => m.id == ue.2)).map fun m => (a, m)

/-- `ORDER BY action.timestamp DESC LIMIT $limit`. -/
def historyLimited (g : GraphStore) (userId : String) (limit : Nat) :
    List (ActionNode × MCPNode) :=
  ((historyRows g userId).mergeSort fun x y =>
      decide (y.1.timestamp ≤ x.1.timestamp)).take limit

def parseHistoryEntry (rt : JsRuntime) (r : ActionNode × MCPNode) :
    Option HistoryEntry :=
  match rt.parse r.1.parameters, rt.parse r.1.result with
  | some p, some q =>
    some ⟨⟨r.1.id, r.1.type, r.1.name, p, q, r.1.status, r.1.timestamp⟩, r.2⟩
  | _, _ => none

/-- `getUserActionHistory(userId, limit = 20)`. -/
def getUserActionHistory (t : Tracker) (rt : JsRuntime) (userId : String)
    (limit : Nat) : HistoryResult × Nat :=
  if t.enabled then
    match mapOpt (parseHistoryEntry rt) (historyLimited t.store userId limit) with
    | some es => (⟨true, some es, none⟩, 1)
    | none => (⟨false, none, some "Failed to get user action history: error"⟩, 1)
  else
    (⟨false, none,
       some "Action tracking is disabled - cannot retrieve user action history"⟩, 0)

/-- Neo4j's `duration.between(a, b).minutes` for instants less than one
month apart: the difference is normalised into whole days plus a seconds
group, and the `minutes` accessor counts only the whole minutes of the
seconds group (days do NOT flow into it). `d` is the difference in
seconds. -/
def minutesComponent (d : Nat) : Nat := (d % 86400) / 60

/-- One row surviving all filters of the `suggestNextAction` query: an
anchor action and a successor action. -/
structure SuggestRow where
  current : ActionNode
  next : ActionNode

/-- The row set of the `suggestNextAction` Cypher query: anchors of the
requested action type used against a backend of the requested type whose
stored parameters are Jaro-Winkler-similar (> 0.7) to the serialized query
parameters; joined through the performing user to that user's later actions
against the same backend node; keeping rows whose time difference has a
minutes component below 30.  (`$userId` is bound but never referenced by
the query text, so it does not appear here.) -/
def suggestRows (g : GraphStore) (paramsJson mcpType currentActionType : String) :
    List SuggestRow :=
  ((usedRows g).filter fun cm =>
      cm.1.type == currentActionType && cm.2.type == mcpType &&
        decide (jaroWinklerDistance paramsJson cm.1.parameters > 7 / 10)).flatMap
    fun cm =>
      (g.performed.filter (fun pe => pe.2 == cm.1.id)).flatMap fun pe =>
        (g.users.filter (fun u => u.id == pe.1)).flatMap fun u =>
          (g.performed.filter (fun e2 => e2.1 == u.id)).flatMap fun e2 =>
            (g.actions.filter (fun nx => nx.id == e2.2)).flatMap fun nx =>
              (g.used.filter (fun ue => ue.1 == nx.id && ue.2 == cm.2.id)).filterMap
                fun _ =>
                  if nx.timestamp > cm.1.timestamp &&
                      minutesComponent (nx.timestamp - cm.1.timestamp) < 30 then
                    some ⟨cm.1, nx⟩
                  else none

/-- First-occurrence deduplication (`COLLECT(DISTINCT …)` and the implicit
grouping-key enumeration of a Cypher aggregation). -/
def dedupFirst {κ : Type} [BEq κ] (l : List κ) : List κ :=
  l.foldl (fun acc k => if acc.contains k then acc else acc ++ [k]) []

/-- One aggregation group of the `suggestNextAction` query, before
deserialisation: grouping key `(nextAction.type, nextAction.name)`,
`COLLECT(DISTINCT nextAction.parameters)`, and `COUNT(nextAction)` (a plain
row count — not distinct). -/
structure SuggestGroup where
  nextActionType : String
  nextActionName : String
  parametersList : List String
  frequency : Nat

/-- Group the surviving rows by `(type, name)`. -/
def suggestGroups (g : GraphStore) (paramsJson mcpType currentActionType : String) :
    List SuggestGroup :=
  let rows := suggestRows g paramsJson mcpType currentActionType
  (dedupFirst (rows.map fun r => (r.next.type, r.next.name))).map fun k =>
    let rs := rows.filter fun r => (r.next.type, r.next.name) == k
    ⟨k.1, k.2, dedupFirst (rs.map fun r => r.next.parameters), rs.length⟩

/-- `ORDER BY frequency DESC LIMIT 3`. -/
def suggestTop (g : GraphStore) (paramsJson mcpType currentActionType : String) :
    List SuggestGroup :=
  ((suggestGroups g paramsJson mcpType currentActionType).mergeSort fun x y =>
      decide (y.frequency ≤ x.frequency)).take 3

/-- One suggestion in `suggestNextAction`'s result list, with the collected
parameter samples deserialised. -/
structure Suggestion where
  actionType : String
  actionName : String
  possibleParameters : List Json
  frequency : Nat

/-- Result object of `suggestNextAction`. -/
structure SuggestResult where
  success : Bool
  suggestions : Option (List Suggestion)
  message : Option String

/-- `suggestNextAction({userId, mcpType, currentActionType,
currentParameters})`.  `userId` is accepted (and bound as a query
parameter) but unused by the query text. -/
def suggestNextAction (t : Tracker) (rt : JsRuntime) (userId mcpType
    currentActionType : String) (currentParameters : Json) : SuggestResult × Nat :=
  if t.enabled then
    match mapOpt
        (fun grp =>
          (mapOpt rt.parse grp.parametersList).map fun ps =>
            Suggestion.mk grp.nextActionType grp.nextActionName ps grp.frequency)
        (suggestTop t.store (rt.stringify currentParameters) mcpType
          currentActionType) with
    | some sugg => (⟨true, some sugg, none⟩, 1)
    | none => (⟨false, none, some "Failed to suggest next action: error"⟩, 1)
  else
    (⟨false, none, some "Action tracking is disabled - cannot suggest next action"⟩, 0)

/-- One row of the `getActionRecommendations` query: a full-text match
joined to its backend via a `USED` edge and to a performing user via a
`PERFORMED` edge. -/
structure RecommendRow where
  action : ActionNode
  mcp : MCPNode

/-- The row set of the `getActionRecommendations` Cypher query.  The
full-text index lookup (`db.index.fulltext.queryNodes("actionContext",
$context)`) is store-side infrastructure, modelled by the oracle `ft`
deciding which Action nodes match the context string.  (`$userId` is bound
but never referenced by the query text.) -/
def recommendRows (g : GraphStore) (ft : String → ActionNode → Bool)
    (context : String) : List RecommendRow :=
  (g.actions.filter (ft context)).flatMap fun a =>
    (g.used.filter (fun ue => ue.1 == a.id)).flatMap fun ue =>
      (g.mcps.filter (fun m => m.id == ue.2)).flatMap fun m =>
        (g.performed.filter (fun pe => pe.2 == a.id)).flatMap fun pe =>
          (g.users.filter (fun u => u.id == pe.1)).map fun _ => ⟨a, m⟩

/-- One aggregation group of `getActionRecommendations`, before
deserialisation. -/
structure RecommendGroup where
  mcpType : String
  mcpName : String
  actionType : String
  actionName : String
  parameterSamples : List String
  frequency : Nat

/-- Group rows by `(mcp.type, mcp.name, action.type, action.name)`. -/
def recommendGroups (g : GraphStore) (ft : String → ActionNode → Bool)
    (context : String) : List RecommendGroup :=
  let rows := recommendRows g ft context
  (dedupFirst (rows.map fun r => (r.mcp.type, r.mcp.name, r.action.type, r.action.name))).map
    fun k =>
      let rs := rows.filter fun r =>
        (r.mcp.type, r.mcp.name, r.action.type, r.action.name) == k
      ⟨k.1, k.2.1, k.2.2.1, k.2.2.2, dedupFirst (rs.map fun r => r.action.parameters),
        rs.length⟩

/-- `ORDER BY frequency DESC LIMIT 5`. -/
def recommendTop (g : GraphStore) (ft : String → ActionNode → Bool)
    (context : String) : List RecommendGroup :=
  ((recommendGroups g ft context).mergeSort fun x y =>
      decide (y.frequency ≤ x.frequency)).take 5

/-- One recommendation in `getActionRecommendations`' result list. -/
structure Recommendation where
  mcpType : String
  mcpName : String
  actionType : String
  actionName : String
  parameterSamples : List Json
  frequency : Nat

/-- Result object of `getActionRecommendations`. -/
structure RecommendResult where
  success : Bool
  recommendations : Option (List Recommendation)
  message : Option String

/-- `getActionRecommendations(userId, context)`.  `userId` is accepted (and
bound as a query parameter) but unused by the query text. -/
def getActionRecommendations (t : Tracker) (rt : JsRuntime)
    (ft : String → ActionNode → Bool) (userId context : String) :
    RecommendResult × Nat :=
  if t.enabled then
    match mapOpt
        (fun grp =>
          (mapOpt rt.parse grp.parameterSamples).map fun ps =>
            Recommendation.mk grp.mcpType grp.mcpName grp.actionType grp.actionName
              ps grp.frequency)
        (recommendTop t.store ft context) with
    | some recs => (⟨true, some recs, none⟩, 1)
    | none => (⟨false, none, some "Failed to get action recommendations: error"⟩, 1)
  else
    (⟨false, none,
       some "Action tracking is disabled - cannot get action recommendations"⟩, 0)

/-- A node reference inside the store, for the `getRelatedActions`
subgraph. -/
inductive NodeRef where
  | user (id : String)
  | action (id : Nat)
  | mcp (id : String)
deriving BEq

/-- Undirected adjacency along `PERFORMED` and `USED` edges
(`apoc.path.subgraphAll` traverses relationships in both directions). -/
def neighbors (g : GraphStore) : NodeRef → List NodeRef
  | .user uid => (g.performed.filter (fun e => e.1 == uid)).map fun e => .action e.2
  | .action aid =>
    (g.performed.filter (fun e => e.2 == aid)).map (fun e => .user e.1) ++
      (g.used.filter (fun e => e.1 == aid)).map fun e => .mcp e.2
  | .mcp mid => (g.used.filter (fun e => e.2 == mid)).map fun e => .action e.1

/-- Nodes reachable from `start` within `maxDepth` steps. -/
def subgraphAll (g : GraphStore) (start : NodeRef) (maxDepth : Nat) : List NodeRef :=
  (List.range maxDepth).foldl
    (fun acc _ => dedupFirst (acc ++ acc.flatMap (neighbors g))) [start]

/-- Result object of `getRelatedActions`; `graph` is `records[0]` of the
query (absent when the query returned no rows — the source then yields
`undefined` with `success: true`). -/
structure RelatedResult where
  success : Bool
  graph : Option (List NodeRef)
  message : Option String

/-- `getRelatedActions({actionId, maxDepth = 2})`. -/
def getRelatedActions (t : Tracker) (actionId : Nat) (maxDepth : Nat) :
    RelatedResult × Nat :=
  if t.enabled then
    if t.store.actions.any (fun a => a.id == actionId) then
      (⟨true, some (subgraphAll t.store (.action actionId) maxDepth), none⟩, 1)
    else (⟨true, none, none⟩, 1)
  else
    (⟨false, none,
       some "Action tracking is disabled - cannot retrieve related actions"⟩, 0)

/-! ### Operations and traces (lifecycle) -/

/-- One public operation of the subsystem, with all external inputs
(arguments, clock, store write outcome, connectivity outcome) made
explicit. -/
inductive Op where
  | connectOp (connectivityOk : Bool)
  | record (a : RecordArgs) (now : Nat) (writeOk : Bool)
  | findSimilar (mcpType actionType : String) (parameters : Json) (limit : Nat)
  | history (userId : String) (limit : Nat)
  | suggest (userId mcpType currentActionType : String) (currentParameters : Json)
  | recommend (userId context : String)
  | related (actionId : Nat) (maxDepth : Nat)
  | closeOp

/-- The result value an operation returned. -/
inductive OpResult where
  | connected
  | closed
  | recorded (r : RecordResult)
  | similar (r : FindSimilarResult)
  | history (r : HistoryResult)
  | suggested (r : SuggestResult)
  | recommended (r : RecommendResult)
  | related (r : RelatedResult)

/-- Run one operation: result, next tracker state, store-access count. -/
def exec (rt : JsRuntime) (ft : String → ActionNode → Bool) (t : Tracker) :
    Op → OpResult × Tracker × Nat
  | .connectOp ok =>
    let c := connect t ok
    (.connected, c.1, c.2)
  | .record a now writeOk =>
    let r := recordAction t a rt now writeOk
    (.recorded r.res, r.tracker, r.accesses)
  | .findSimilar mcpType actionType ps limit =>
    let r := findSimilarActions t rt mcpType actionType ps limit
    (.similar r.1, t, r.2)
  | .history userId limit =>
    let r := getUserActionHistory t rt userId limit
    (.history r.1, t, r.2)
  | .suggest userId mcpType cat cp =>
    let r := suggestNextAction t rt userId mcpType cat cp
    (.suggested r.1, t, r.2)
  | .recommend userId context =>
    let r := getActionRecommendations t rt ft userId context
    (.recommended r.1, t, r.2)
  | .related actionId maxDepth =>
    let r := getRelatedActions t actionId maxDepth
    (.related r.1, t, r.2)
  | .closeOp => (.closed, t, 0)

/-- The tracker state after one operation. -/
def step (rt : JsRuntime) (ft : String → ActionNode → Bool) (t : Tracker)
    (op : Op) : Tracker :=
  (exec rt ft t op).2.1

/-- Total store accesses along a trace of operations. -/
def traceAccesses (rt : JsRuntime) (ft : String → ActionNode → Bool) :
    Tracker → List Op → Nat
  | _, [] => 0
  | t, op :: ops =>
    (exec rt ft t op).2.2 + traceAccesses rt ft (step rt ft t op) ops

/-! ### Helper lemmas -/

theorem mapOpt_eq_none {α β : Type} (f : α → Option β) (l : List α) (x : α)
    (hx : x ∈ l) (hf : f x = none) : mapOpt f l = none := by
  induction l with
  | nil => cases hx
  | cons a as ih =>
    rcases List.mem_cons.mp hx with h | h
    · subst h
      unfold mapOpt
      rw [hf]
    · unfold mapOpt
      rw [ih h]
      cases f a <;> rfl

theorem mapOpt_some_length {α β : Type} (f : α → Option β) :
    ∀ (l : List α) (ys : List β), mapOpt f l = some ys → ys.length = l.length := by
  intro l
  induction l with
  | nil =>
    intro ys h
    unfold mapOpt at h
    injection h with h2
    subst h2
    rfl
  | cons a as ih =>
    intro ys h
    unfold mapOpt at h
    cases hfa : f a with
    | none => rw [hfa] at h; exact absurd h (by simp)
    | some b =>
      rw [hfa] at h
      cases hrec : mapOpt f as with
      | none => rw [hrec] at h; exact absurd h (by simp)
      | some bs =>
        rw [hrec] at h
        injection h with h2
        subst h2
        simp [ih bs hrec]

theorem mapOpt_mem {α β : Type} (f : α → Option β) :
    ∀ (l : List α) (ys : List β) (x : α) (y : β),
      mapOpt f l = some ys → x ∈ l → f x = some y → y ∈ ys := by
  intro l
  induction l with
  | nil => intro ys x y _ hx; cases hx
  | cons a as ih =>
    intro ys x y h hx hfx
    unfold mapOpt at h
    cases hfa : f a with
    | none => rw [hfa] at h; exact absurd h (by simp)
    | some b =>
      rw [hfa] at h
      cases hrec : mapOpt f as with
      | none => rw [hrec] at h; exact absurd h (by simp)
      | some bs =>
        rw [hrec] at h
        injection h with h2
        subst h2
        rcases List.mem_cons.mp hx with hcase | hcase
        · subst hcase
          rw [hfx] at hfa
          injection hfa with h3
          subst h3
          exact List.mem_cons_self _ _
        · exact List.mem_cons_of_mem _ (ih bs x y hrec hcase hfx)

theorem mapOpt_mem_rev {α β : Type} (f : α → Option β) :
    ∀ (l : List α) (ys : List β) (y : β),
      mapOpt f l = some ys → y ∈ ys → ∃ x ∈ l, f x = some y := by
  intro l
  induction l with
  | nil =>
    intro ys y h hy
    unfold mapOpt at h
    injection h with h2
    subst h2
    cases hy
  | cons a as ih =>
    intro ys y h hy
    unfold mapOpt at h
    cases hfa : f a with
    | none => rw [hfa] at h; exact absurd h (by simp)
    | some b =>
      rw [hfa] at h
      cases hrec : mapOpt f as with
      | none => rw [hrec] at h; exact absurd h (by simp)
      | some bs =>
        rw [hrec] at h
        injection h with h2
        subst h2
        rcases List.mem_cons.mp hy with hcase | hcase
        · subst hcase
          exact ⟨a, List.mem_cons_self _ _, hfa⟩
        · rcases ih bs y hrec hcase with ⟨x, hx, hfx⟩
          exact ⟨x, List.mem_cons_of_mem _ hx, hfx⟩

theorem mapOpt_isSome {α β : Type} (f : α → Option β) :
    ∀ (l : List α), (∀ x ∈ l, (f x).isSome = true) → ∃ ys, mapOpt f l = some ys := by
  intro l
  induction l with
  | nil => intro _; exact ⟨[], rfl⟩
  | cons a as ih =>
    intro h
    rcases ih (fun x hx => h x (List.mem_cons_of_mem _ hx)) with ⟨bs, hbs⟩
    rcases Option.isSome_iff_exists.mp (h a (List.mem_cons_self _ _)) with ⟨b, hb⟩
    refine ⟨b :: bs, ?_⟩
    unfold mapOpt
    rw [hb, hbs]

theorem upsertUser_mcps (g : GraphStore) (uid nm : String) (ts : Nat) :
    (upsertUser g uid nm ts).mcps = g.mcps := by
  unfold upsertUser; split <;> rfl

theorem upsertUser_actions (g : GraphStore) (uid nm : String) (ts : Nat) :
    (upsertUser g uid nm ts).actions = g.actions := by
  unfold upsertUser; split <;> rfl

theorem upsertUser_performed (g : GraphStore) (uid nm : String) (ts : Nat) :
    (upsertUser g uid nm ts).performed = g.performed := by
  unfold upsertUser; split <;> rfl

theorem upsertUser_used (g : GraphStore) (uid nm : String) (ts : Nat) :
    (upsertUser g uid nm ts).used = g.used := by
  unfold upsertUser; split <;> rfl

theorem upsertMcp_users (g : GraphStore) (mid mt mn : String) (ts : Nat) :
    (upsertMcp g mid mt mn ts).users = g.users := by
  unfold upsertMcp; split <;> rfl

theorem upsertMcp_actions (g : GraphStore) (mid mt mn : String) (ts : Nat) :
    (upsertMcp g mid mt mn ts).actions = g.actions := by
  unfold upsertMcp; split <;> rfl

theorem upsertMcp_performed (g : GraphStore) (mid mt mn : String) (ts : Nat) :
    (upsertMcp g mid mt mn ts).performed = g.performed := by
  unfold upsertMcp; split <;> rfl

theorem upsertMcp_used (g : GraphStore) (mid mt mn : String) (ts : Nat) :
    (upsertMcp g mid mt mn ts).used = g.used := by
  unfold upsertMcp; split <;> rfl

theorem upsertUser_users_mem (g : GraphStore) (uid nm : String) (ts : Nat)
    (u : UserNode) (hu : u ∈ g.users) : u ∈ (upsertUser g uid nm ts).users := by
  unfold upsertUser
  split
  · exact hu
  · exact List.mem_append_left _ hu

theorem upsertMcp_mcps_mem (g : GraphStore) (mid mt mn : String) (ts : Nat)
    (m : MCPNode) (hm : m ∈ g.mcps) : m ∈ (upsertMcp g mid mt mn ts).mcps := by
  unfold upsertMcp
  split
  · exact hm
  · exact List.mem_append_left _ hm

theorem upsertUser_exists_self (g : GraphStore) (uid nm : String) (ts : Nat) :
    ∃ u ∈ (upsertUser g uid nm ts).users, u.id = uid := by
  by_cases h : g.users.any (fun u => u.id == uid) = true
  · rcases List.any_eq_true.mp h with ⟨u, hu, he⟩
    refine ⟨u, ?_, by simpa using he⟩
    simp only [upsertUser, if_pos h]
    exact hu
  · refine ⟨⟨uid, nm, ts⟩, ?_, rfl⟩
    simp only [upsertUser, if_neg h]
    exact List.mem_append_right _ (List.mem_singleton.mpr rfl)

theorem upsertMcp_exists_self (g : GraphStore) (mid mt mn : String) (ts : Nat) :
    ∃ m ∈ (upsertMcp g mid mt mn ts).mcps, m.id = mid := by
  by_cases h : g.mcps.any (fun m => m.id == mid) = true
  · rcases List.any_eq_true.mp h with ⟨m, hm, he⟩
    refine ⟨m, ?_, by simpa using he⟩
    simp only [upsertMcp, if_pos h]
    exact hm
  · refine ⟨⟨mid, mt, mn, ts⟩, ?_, rfl⟩
    simp only [upsertMcp, if_neg h]
    exact List.mem_append_right _ (List.mem_singleton.mpr rfl)

theorem upsertUser_of_exists (g : GraphStore) (uid nm : String) (ts : Nat)
    (h : ∃ u ∈ g.users, u.id = uid) : upsertUser g uid nm ts = g := by
  have hany : g.users.any (fun u => u.id == uid) = true := by
    rcases h with ⟨u, hu, he⟩
    exact List.any_eq_true.mpr ⟨u, hu, by simpa using he⟩
  simp only [upsertUser, if_pos hany]

theorem upsertMcp_of_exists (g : GraphStore) (mid mt mn : String) (ts : Nat)
    (h : ∃ m ∈ g.mcps, m.id = mid) : upsertMcp g mid mt mn ts = g := by
  have hany : g.mcps.any (fun m => m.id == mid) = true := by
    rcases h with ⟨m, hm, he⟩
    exact List.any_eq_true.mpr ⟨m, hm, by simpa using he⟩
  simp only [upsertMcp, if_pos hany]

/-- The uniform shape of every operation's return value in the disabled
state: `recordAction` reports success with a fresh (unstored) UUID, every
query reports failure, each with its specific disabled message. -/
def disabledShape (t : Tracker) : OpResult → Prop
  | .connected => True
  | .closed => True
  | .recorded r =>
    r = ⟨true, some t.nextUuid, "Action tracking is disabled - action not recorded"⟩
  | .similar r =>
    r = ⟨false, none, some "Action tracking is disabled - cannot find similar actions"⟩
  | .history r =>
    r = ⟨false, none,
      some "Action tracking is disabled - cannot retrieve user action history"⟩
  | .suggested r =>
    r = ⟨false, none, some "Action tracking is disabled - cannot suggest next action"⟩
  | .recommended r =>
    r = ⟨false, none,
      some "Action tracking is disabled - cannot get action recommendations"⟩
  | .related r =>
    r = ⟨false, none,
      some "Action tracking is disabled - cannot retrieve related actions"⟩

theorem exec_disabled (rt : JsRuntime) (ft : String → ActionNode → Bool)
    (t : Tracker) (op : Op) (h : t.enabled = false) :
    (exec rt ft t op).2.2 = 0 ∧ (exec rt ft t op).2.1.enabled = false ∧
      (exec rt ft t op).2.1.store = t.store ∧ disabledShape t (exec rt ft t op).1 := by
  cases op <;>
    simp [exec, connect, recordAction, findSimilarActions, getUserActionHistory,
      suggestNextAction, getActionRecommendations, getRelatedActions, h, disabledShape]

theorem recordWrite_actions (g : GraphStore) (a : RecordArgs) (rt : JsRuntime)
    (now i : Nat) :
    (recordWrite g a rt now i).actions = g.actions ++
      [⟨i, a.actionType, a.actionName, rt.stringify a.parameters,
        rt.stringify a.result, a.status, now⟩] := by
  simp [recordWrite, upsertMcp_actions, upsertUser_actions]

theorem recordWrite_performed (g : GraphStore) (a : RecordArgs) (rt : JsRuntime)
    (now i : Nat) :
    (recordWrite g a rt now i).performed = g.performed ++ [(a.userId, i)] := by
  simp [recordWrite, upsertMcp_performed, upsertUser_performed]

theorem recordWrite_used (g : GraphStore) (a : RecordArgs) (rt : JsRuntime)
    (now i : Nat) :
    (recordWrite g a rt now i).used = g.used ++ [(i, a.mcpId)] := by
  simp [recordWrite, upsertMcp_used, upsertUser_used]

theorem recordWrite_users_mem (g : GraphStore) (a : RecordArgs) (rt : JsRuntime)
    (now i : Nat) (u : UserNode) (hu : u ∈ g.users) :
    u ∈ (recordWrite g a rt now i).users := by
  simp only [recordWrite, upsertMcp_users]
  exact upsertUser_users_mem _ _ _ _ _ hu

theorem recordWrite_mcps_mem (g : GraphStore) (a : RecordArgs) (rt : JsRuntime)
    (now i : Nat) (m : MCPNode) (hm : m ∈ g.mcps) :
    m ∈ (recordWrite g a rt now i).mcps := by
  simp only [recordWrite]
  exact upsertMcp_mcps_mem _ _ _ _ _ _
    (by simpa [upsertUser_mcps] using hm)

theorem recordWrite_users_exists (g : GraphStore) (a : RecordArgs) (rt : JsRuntime)
    (now i : Nat) : ∃ u ∈ (recordWrite g a rt now i).users, u.id = a.userId := by
  simp only [recordWrite, upsertMcp_users]
  exact upsertUser_exists_self _ _ _ _

theorem recordWrite_mcps_exists (g : GraphStore) (a : RecordArgs) (rt : JsRuntime)
    (now i : Nat) : ∃ m ∈ (recordWrite g a rt now i).mcps, m.id = a.mcpId := by
  simp only [recordWrite]
  exact upsertMcp_exists_self _ _ _ _ _

/-- Store well-formedness: every Action node has exactly one `PERFORMED`
edge into it and exactly one `USED` edge out of it, and the far endpoints
of those edges are present User / MCP nodes. -/
def WellFormedStore (g : GraphStore) : Prop :=
  ∀ a ∈ g.actions,
    (g.performed.countP fun e => e.2 == a.id) = 1 ∧
    (g.used.countP fun e => e.1 == a.id) = 1 ∧
    (∃ u ∈ g.users, (u.id, a.id) ∈ g.performed) ∧
    (∃ m ∈ g.mcps, (a.id, m.id) ∈ g.used)

/-- Freshness bookkeeping: every stored action id and every edge's action
id is below the UUID supply counter. -/
def IdsBelow (t : Tracker) : Prop :=
  (∀ a ∈ t.store.actions, a.id < t.nextUuid) ∧
  (∀ e ∈ t.store.performed, e.2 < t.nextUuid) ∧
  (∀ e ∈ t.store.used, e.1 < t.nextUuid)

theorem record_preserves (t : Tracker) (a : RecordArgs) (rt : JsRuntime)
    (now : Nat) (w : Bool) (hwf : WellFormedStore t.store) (hid : IdsBelow t) :
    WellFormedStore (recordAction t a rt now w).tracker.store ∧
      IdsBelow (recordAction t a rt now w).tracker := by
  obtain ⟨hidA, hidP, hidU⟩ := hid
  unfold recordAction
  by_cases he : t.enabled = true
  · rw [if_pos he]
    by_cases hw : w = true
    · rw [if_pos hw]
      dsimp only
      constructor
      · intro x hx
        rw [recordWrite_actions] at hx
        rw [recordWrite_performed, recordWrite_used]
        rcases List.mem_append.mp hx with hold | hnew
        · obtain ⟨h1, h2, ⟨u, hu, hedge⟩, ⟨m, hm, hedge2⟩⟩ := hwf x hold
          have hxid : x.id ≠ t.nextUuid := by
            have := hidA x hold
            omega
          refine ⟨?_, ?_, ?_, ?_⟩
          · rw [List.countP_append, h1]
            simp [List.countP_cons, beq_eq_false_iff_ne, Ne.symm hxid]
          · rw [List.countP_append, h2]
            simp [List.countP_cons, beq_eq_false_iff_ne, Ne.symm hxid]
          · exact ⟨u, recordWrite_users_mem _ _ _ _ _ _ hu,
              List.mem_append_left _ hedge⟩
          · exact ⟨m, recordWrite_mcps_mem _ _ _ _ _ _ hm,
              List.mem_append_left _ hedge2⟩
        · have hxeq : x = ⟨t.nextUuid, a.actionType, a.actionName,
              rt.stringify a.parameters, rt.stringify a.result, a.status, now⟩ :=
            List.mem_singleton.mp hnew
          have hxid : x.id = t.nextUuid := by rw [hxeq]
          refine ⟨?_, ?_, ?_, ?_⟩
          · rw [List.countP_append]
            have hz : (t.store.performed.countP fun e => e.2 == x.id) = 0 := by
              rw [List.countP_eq_zero]
              intro e hee
              have := hidP e hee
              simp [beq_eq_false_iff_ne]
              omega
            rw [hz]
            simp [List.countP_cons, hxid]
          · rw [List.countP_append]
            have hz : (t.store.used.countP fun e => e.1 == x.id) = 0 := by
              rw [List.countP_eq_zero]
              intro e hee
              have := hidU e hee
              simp [beq_eq_false_iff_ne]
              omega
            rw [hz]
            simp [List.countP_cons, hxid]
          · rcases recordWrite_users_exists t.store a rt now t.nextUuid with
              ⟨u, hu, huid⟩
            refine ⟨u, hu, List.mem_append_right _ ?_⟩
            rw [huid, hxid]
            exact List.mem_singleton.mpr rfl
          · rcases recordWrite_mcps_exists t.store a rt now t.nextUuid with
              ⟨m, hm, hmid⟩
            refine ⟨m, hm, List.mem_append_right _ ?_⟩
            rw [hmid, hxid]
            exact List.mem_singleton.mpr rfl
      · refine ⟨?_, ?_, ?_⟩
        · intro x hx
          rw [recordWrite_actions] at hx
          show x.id < t.nextUuid + 1
          rcases List.mem_append.mp hx with hold | hnew
          · have := hidA x hold; omega
          · have hxeq := List.mem_singleton.mp hnew
            have hxid : x.id = t.nextUuid := by rw [hxeq]
            omega
        · intro e hee
          rw [recordWrite_performed] at hee
          show e.2 < t.nextUuid + 1
          rcases List.mem_append.mp hee with hold | hnew
          · have := hidP e hold; omega
          · have heq := List.mem_singleton.mp hnew
            have hid2 : e.2 = t.nextUuid := by rw [heq]
            omega
        · intro e hee
          rw [recordWrite_used] at hee
          show e.1 < t.nextUuid + 1
          rcases List.mem_append.mp hee with hold | hnew
          · have := hidU e hold; omega
          · have heq := List.mem_singleton.mp hnew
            have hid1 : e.1 = t.nextUuid := by rw [heq]
            omega
    · rw [if_neg hw]
      exact ⟨hwf,
        fun x hx => by have := hidA x hx; show x.id < t.nextUuid + 1; omega,
        fun e hee => by have := hidP e hee; show e.2 < t.nextUuid + 1; omega,
        fun e hee => by have := hidU e hee; show e.1 < t.nextUuid + 1; omega⟩
  · rw [if_neg he]
    exact ⟨hwf,
      fun x hx => by have := hidA x hx; show x.id < t.nextUuid + 1; omega,
      fun e hee => by have := hidP e hee; show e.2 < t.nextUuid + 1; omega,
      fun e hee => by have := hidU e hee; show e.1 < t.nextUuid + 1; omega⟩

theorem step_preserves (rt : JsRuntime) (ft : String → ActionNode → Bool)
    (t : Tracker) (op : Op) (h : WellFormedStore t.store ∧ IdsBelow t) :
    WellFormedStore (step rt ft t op).store ∧ IdsBelow (step rt ft t op) := by
  cases op with
  | record a now w => exact record_preserves t a rt now w h.1 h.2
  | connectOp ok =>
    have hs : (step rt ft t (.connectOp ok)).store = t.store ∧
        (step rt ft t (.connectOp ok)).nextUuid = t.nextUuid := by
      simp only [step, exec, connect]
      split
      · split <;> exact ⟨rfl, rfl⟩
      · exact ⟨rfl, rfl⟩
    exact ⟨hs.1 ▸ h.1, by
      obtain ⟨h1, h2, h3⟩ := h.2
      rw [IdsBelow, hs.1, hs.2]
      exact ⟨h1, h2, h3⟩⟩
  | findSimilar mt aty ps lim => exact h
  | history uid lim => exact h
  | suggest uid mt cat cp => exact h
  | recommend uid ctx => exact h
  | related aid md => exact h
  | closeOp => exact h

theorem foldl_preserves (rt : JsRuntime) (ft : String → ActionNode → Bool) :
    ∀ (ops : List Op) (t : Tracker), WellFormedStore t.store ∧ IdsBelow t →
      WellFormedStore ((ops.foldl (step rt ft) t)).store ∧
        IdsBelow (ops.foldl (step rt ft) t) := by
  intro ops
  induction ops with
  | nil => intro t h; exact h
  | cons op rest ih =>
    intro t h
    exact ih (step rt ft t op) (step_preserves rt ft t op h)

theorem recordWrite_users_of_exists (g : GraphStore) (a : RecordArgs)
    (rt : JsRuntime) (now i : Nat) (h : ∃ u ∈ g.users, u.id = a.userId) :
    (recordWrite g a rt now i).users = g.users := by
  simp only [recordWrite, upsertMcp_users]
  rw [upsertUser_of_exists _ _ _ _ h]

theorem recordWrite_mcps_of_exists (g : GraphStore) (a : RecordArgs)
    (rt : JsRuntime) (now i : Nat) (h : ∃ m ∈ g.mcps, m.id = a.mcpId) :
    (recordWrite g a rt now i).mcps = g.mcps := by
  have h2 : ∃ m ∈ (upsertUser g a.userId a.userName now).mcps, m.id = a.mcpId := by
    rwa [upsertUser_mcps]
  simp only [recordWrite]
  rw [upsertMcp_of_exists _ _ _ _ _ h2, upsertUser_mcps]

/-! ### Claim theorems -/

/-- C1: for every Action node created by `recordAction`, exactly one
`PERFORMED` edge (from the upserted User) and exactly one `USED` edge (to
the upserted Backend/MCP node) exist, both created in the same atomic write
as the Action node: no store state reachable by any sequence of tracker
operations (from a fresh store) contains an Action lacking either edge. -/
theorem action_edges_created_atomically (rt : JsRuntime)
    (ft : String → ActionNode → Bool) (uri username password : Option String)
    (ops : List Op) :
    WellFormedStore ((ops.foldl (step rt ft) (mkTracker uri username password)).store) :=
  (foldl_preserves rt ft ops (mkTracker uri username password)
    ⟨fun a ha => absurd ha (List.not_mem_nil a),
      fun a ha => absurd ha (List.not_mem_nil a),
      fun e hee => absurd hee (List.not_mem_nil e),
      fun e hee => absurd hee (List.not_mem_nil e)⟩).1

/-- C2: a second `recordAction` call with the same `userId` leaves the
existing User node (its `name` and `createdAt`) unchanged even when a
different `userName` is supplied, and likewise for the MCP node when the
same `mcpId` is reused: the `ON CREATE SET` attributes are written only
when the node is first created. -/
theorem upsert_leaves_existing_user_unchanged (t : Tracker) (rt : JsRuntime)
    (a1 a2 : RecordArgs) (n1 n2 : Nat) (w2 : Bool) (ht : t.enabled = true)
    (hid : a2.userId = a1.userId) :
    ((recordAction t a1 rt n1 true).tracker.store.users.find?
        (fun u => u.id == a1.userId)).isSome = true ∧
    (recordAction (recordAction t a1 rt n1 true).tracker a2 rt n2 w2).tracker.store.users.find?
        (fun u => u.id == a1.userId) =
      (recordAction t a1 rt n1 true).tracker.store.users.find?
        (fun u => u.id == a1.userId) ∧
    (a2.mcpId = a1.mcpId →
      (recordAction (recordAction t a1 rt n1 true).tracker a2 rt n2 w2).tracker.store.mcps.find?
          (fun m => m.id == a1.mcpId) =
        (recordAction t a1 rt n1 true).tracker.store.mcps.find?
          (fun m => m.id == a1.mcpId)) := by
  have hstore1 : (recordAction t a1 rt n1 true).tracker.store =
      recordWrite t.store a1 rt n1 t.nextUuid := by
    unfold recordAction
    rw [if_pos ht]
    rfl
  have hen1 : (recordAction t a1 rt n1 true).tracker.enabled = true := by
    unfold recordAction
    rw [if_pos ht]
    exact ht
  generalize hT1 : (recordAction t a1 rt n1 true).tracker = t1 at *
  have hfind : (t1.store.users.find? (fun u => u.id == a1.userId)).isSome = true := by
    rw [hstore1]
    rcases recordWrite_users_exists t.store a1 rt n1 t.nextUuid with ⟨u, hu, he⟩
    exact List.find?_isSome.mpr ⟨u, hu, by simpa using he⟩
  have hexu : ∃ u ∈ t1.store.users, u.id = a2.userId := by
    rw [hid, hstore1]
    exact recordWrite_users_exists _ _ _ _ _
  refine ⟨hfind, ?_⟩
  by_cases hw2 : w2 = true
  · have hstore2 : (recordAction t1 a2 rt n2 w2).tracker.store =
        recordWrite t1.store a2 rt n2 t1.nextUuid := by
      unfold recordAction
      rw [if_pos hen1, if_pos hw2]
    constructor
    · rw [hstore2, recordWrite_users_of_exists _ _ _ _ _ hexu]
    · intro hmid
      have hexm : ∃ m ∈ t1.store.mcps, m.id = a2.mcpId := by
        rw [hmid, hstore1]
        exact recordWrite_mcps_exists _ _ _ _ _
      rw [hstore2, recordWrite_mcps_of_exists _ _ _ _ _ hexm]
  · have hstore2 : (recordAction t1 a2 rt n2 w2).tracker.store = t1.store := by
      unfold recordAction
      rw [if_pos hen1, if_neg hw2]
    rw [hstore2]
    exact ⟨rfl, fun _ => rfl⟩

/-- C6: constructing the tracker with any of uri/username/password missing
(or empty) puts it directly into the disabled state; every operation then
returns its disabled result with zero store accesses and the store
untouched. -/
theorem missing_credentials_disable_everything (uri username password : Option String)
    (rt : JsRuntime) (ft : String → ActionNode → Bool)
    (h : (truthy uri && truthy username && truthy password) = false) :
    (mkTracker uri username password).enabled = false ∧
    ∀ op : Op,
      (exec rt ft (mkTracker uri username password) op).2.2 = 0 ∧
      (exec rt ft (mkTracker uri username password) op).2.1.enabled = false ∧
      (exec rt ft (mkTracker uri username password) op).2.1.store =
        (mkTracker uri username password).store ∧
      disabledShape (mkTracker uri username password)
        (exec rt ft (mkTracker uri username password) op).1 :=
  ⟨h, fun op => exec_disabled rt ft _ op h⟩

/-- C7: once the tracker is disabled — whether at construction or after a
failed connectivity check — no sequence of operations ever re-enables it,
changes the store, or performs any store access. -/
theorem disabled_is_permanent (rt : JsRuntime) (ft : String → ActionNode → Bool)
    (t : Tracker) (ops : List Op) (h : t.enabled = false) :
    (ops.foldl (step rt ft) t).enabled = false ∧
    (ops.foldl (step rt ft) t).store = t.store ∧
    traceAccesses rt ft t ops = 0 ∧
    ∀ op : Op, disabledShape (ops.foldl (step rt ft) t)
      (exec rt ft (ops.foldl (step rt ft) t) op).1 := by
  induction ops generalizing t with
  | nil => exact ⟨h, rfl, rfl, fun op => (exec_disabled rt ft t op h).2.2.2⟩
  | cons op rest ih =>
    obtain ⟨hz, hen, hst, _⟩ := exec_disabled rt ft t op h
    have hrec := ih (step rt ft t op) hen
    refine ⟨hrec.1, ?_, ?_, ?_⟩
    · show (List.foldl (step rt ft) (step rt ft t op) rest).store = t.store
      rw [hrec.2.1]
      exact hst
    · show (exec rt ft t op).2.2 + traceAccesses rt ft (step rt ft t op) rest = 0
      rw [hz, hrec.2.2.1]
    · exact fun op2 => hrec.2.2.2 op2

/-- C8: `suggestNextAction` and `getActionRecommendations` accept a
`userId` argument, but for a fixed store and fixed other arguments their
results are identical for any two values of `userId`: the bound query
parameter is never referenced by the query text, so it neither filters nor
otherwise influences the mined result set. -/
theorem userId_does_not_influence_mining (t : Tracker) (rt : JsRuntime)
    (ft : String → ActionNode → Bool) (userId1 userId2 mcpType
    currentActionType : String) (currentParameters : Json) (context : String) :
    suggestNextAction t rt userId1 mcpType currentActionType currentParameters =
      suggestNextAction t rt userId2 mcpType currentActionType currentParameters ∧
    getActionRecommendations t rt ft userId1 context =
      getActionRecommendations t rt ft userId2 context :=
  ⟨rfl, rfl⟩

/-- C9: in the disabled state, `recordAction` returns `success: true`
carrying a freshly generated UUID and the message "Action tracking is
disabled - action not recorded" while storing nothing, whereas every query
operation returns `success: false` with its own disabled message. -/
theorem disabled_record_succeeds_queries_fail (t : Tracker) (rt : JsRuntime)
    (ft : String → ActionNode → Bool) (h : t.enabled = false) (a : RecordArgs)
    (now : Nat) (w : Bool) (actionId maxDepth limit1 limit2 : Nat)
    (mcpType actionType userId currentActionType context : String) (ps cp : Json) :
    (recordAction t a rt now w).res =
      ⟨true, some t.nextUuid, "Action tracking is disabled - action not recorded"⟩ ∧
    (recordAction t a rt now w).tracker.store = t.store ∧
    (getRelatedActions t actionId maxDepth).1 =
      ⟨false, none, some "Action tracking is disabled - cannot retrieve related actions"⟩ ∧
    (findSimilarActions t rt mcpType actionType ps limit1).1 =
      ⟨false, none, some "Action tracking is disabled - cannot find similar actions"⟩ ∧
    (getUserActionHistory t rt userId limit2).1 =
      ⟨false, none,
        some "Action tracking is disabled - cannot retrieve user action history"⟩ ∧
    (suggestNextAction t rt userId mcpType currentActionType cp).1 =
      ⟨false, none, some "Action tracking is disabled - cannot suggest next action"⟩ ∧
    (getActionRecommendations t rt ft userId context).1 =
      ⟨false, none,
        some "Action tracking is disabled - cannot get action recommendations"⟩ := by
  refine ⟨?_, ?_, ?_, ?_, ?_, ?_, ?_⟩ <;>
    simp [recordAction, getRelatedActions, findSimilarActions, getUserActionHistory,
      suggestNextAction, getActionRecommendations, h]

theorem mem_usedRows (g : GraphStore) (a : ActionNode) (m : MCPNode)
    (ha : a ∈ g.actions) (hm : m ∈ g.mcps) (he : (a.id, m.id) ∈ g.used) :
    (a, m) ∈ usedRows g := by
  unfold usedRows
  refine List.mem_flatMap.mpr ⟨(a.id, m.id), he, ?_⟩
  refine List.mem_flatMap.mpr ⟨a, List.mem_filter.mpr ⟨ha, by simp⟩, ?_⟩
  exact List.mem_map.mpr ⟨m, List.mem_filter.mpr ⟨hm, by simp⟩, rfl⟩

theorem mem_similarScored (g : GraphStore) (paramsJson mcpType actionType : String)
    (a : ActionNode) (m : MCPNode) (hrow : (a, m) ∈ usedRows g)
    (hmt : m.type = mcpType) (hat : a.type = actionType)
    (hsim : jaroWinklerDistance paramsJson a.parameters > 7 / 10) :
    (a, m, jaroWinklerDistance paramsJson a.parameters) ∈
      similarScored g paramsJson mcpType actionType := by
  unfold similarScored
  refine List.mem_filter.mpr ⟨?_, by simpa using hsim⟩
  refine List.mem_map.mpr ⟨(a, m), List.mem_filter.mpr ⟨hrow, ?_⟩, rfl⟩
  simp [hmt, hat]

theorem mem_similarLimited (g : GraphStore) (paramsJson mcpType actionType : String)
    (limit : Nat) (r : ActionNode × MCPNode × ℚ)
    (hr : r ∈ similarScored g paramsJson mcpType actionType)
    (hlim : (similarScored g paramsJson mcpType actionType).length ≤ limit) :
    r ∈ similarLimited g paramsJson mcpType actionType limit := by
  unfold similarLimited
  have hperm := List.mergeSort_perm (similarScored g paramsJson mcpType actionType)
    (fun x y => decide (y.2.2 < x.2.2) ||
      (decide (x.2.2 = y.2.2) && decide (y.1.timestamp ≤ x.1.timestamp)))
  rw [List.take_of_length_le (by rw [hperm.length_eq]; exact hlim)]
  exact hperm.mem_iff.mpr hr

theorem similarLimited_subset (g : GraphStore) (paramsJson mcpType actionType : String)
    (limit : Nat) (r : ActionNode × MCPNode × ℚ)
    (hr : r ∈ similarLimited g paramsJson mcpType actionType limit) :
    r ∈ similarScored g paramsJson mcpType actionType := by
  unfold similarLimited at hr
  exact (List.mergeSort_perm _ _).subset (List.mem_of_mem_take hr)

theorem similarScored_sim_gt (g : GraphStore) (paramsJson mcpType actionType : String)
    (r : ActionNode × MCPNode × ℚ)
    (hr : r ∈ similarScored g paramsJson mcpType actionType) : r.2.2 > 7 / 10 := by
  unfold similarScored at hr
  have := (List.mem_filter.mp hr).2
  simpa using this

theorem parseSimilarEntry_fields (rt : JsRuntime) (r : ActionNode × MCPNode × ℚ)
    (e : SimilarEntry) (h : parseSimilarEntry rt r = some e) :
    e.similarity = r.2.2 ∧ e.action.id = r.1.id := by
  unfold parseSimilarEntry at h
  cases h1 : rt.parse r.1.parameters with
  | none => rw [h1] at h; exact absurd h (by simp)
  | some p =>
    cases h2 : rt.parse r.1.result with
    | none => rw [h1, h2] at h; exact absurd h (by simp)
    | some q =>
      rw [h1, h2] at h
      injection h with h3
      subst h3
      exact ⟨rfl, rfl⟩

theorem parseSimilarEntry_none (rt : JsRuntime) (r : ActionNode × MCPNode × ℚ)
    (h : rt.parse r.1.parameters = none ∨ rt.parse r.1.result = none) :
    parseSimilarEntry rt r = none := by
  unfold parseSimilarEntry
  cases h1 : rt.parse r.1.parameters with
  | none => rfl
  | some p =>
    cases h2 : rt.parse r.1.result with
    | none => rfl
    | some q =>
      rcases h with h | h
      · rw [h1] at h; exact absurd h (by simp)
      · rw [h2] at h; exact absurd h (by simp)

theorem parseHistoryEntry_none (rt : JsRuntime) (r : ActionNode × MCPNode)
    (h : rt.parse r.1.parameters = none ∨ rt.parse r.1.result = none) :
    parseHistoryEntry rt r = none := by
  unfold parseHistoryEntry
  cases h1 : rt.parse r.1.parameters with
  | none => rfl
  | some p =>
    cases h2 : rt.parse r.1.result with
    | none => rfl
    | some q =>
      rcases h with h | h
      · rw [h1] at h; exact absurd h (by simp)
      · rw [h2] at h; exact absurd h (by simp)

/-- C5: every candidate in a returned `findSimilarActions` result list has
computed similarity strictly greater than 0.7; no candidate at or below the
threshold is ever returned. -/
theorem returned_similarity_above_threshold (t : Tracker) (rt : JsRuntime)
    (mcpType actionType : String) (ps : Json) (limit : Nat)
    (es : List SimilarEntry) (e : SimilarEntry)
    (hes : (findSimilarActions t rt mcpType actionType ps limit).1.similarActions =
      some es) (he : e ∈ es) : e.similarity > 7 / 10 := by
  unfold findSimilarActions at hes
  by_cases ht : t.enabled = true
  · rw [if_pos ht] at hes
    cases hmap : mapOpt (parseSimilarEntry rt)
        (similarLimited t.store (rt.stringify ps) mcpType actionType limit) with
    | none => rw [hmap] at hes; exact absurd hes (by simp)
    | some ys =>
      rw [hmap] at hes
      simp only [Option.some.injEq] at hes
      subst hes
      rcases mapOpt_mem_rev _ _ _ _ hmap he with ⟨r, hr, hpr⟩
      have hfields := parseSimilarEntry_fields rt r e hpr
      have hscored := similarLimited_subset _ _ _ _ _ _ hr
      have hgt := similarScored_sim_gt _ _ _ _ _ hscored
      rw [hfields.1]
      exact hgt
  · rw [if_neg ht] at hes
    exact absurd hes (by simp)

/-- C4: when a stored action's serialized parameters coincide with the
serialized query parameters, `findSimilarActions` computes similarity
exactly 1 for it, and (the candidate set fitting in `limit`, all records
deserialisable) returns it. -/
theorem identical_parameters_score_one (t : Tracker) (rt : JsRuntime)
    (mcpType actionType : String) (ps : Json) (limit : Nat) (a : ActionNode)
    (m : MCPNode) (ht : t.enabled = true) (ha : a ∈ t.store.actions)
    (hm : m ∈ t.store.mcps) (he : (a.id, m.id) ∈ t.store.used)
    (hmt : m.type = mcpType) (hat : a.type = actionType)
    (hser : rt.stringify ps = a.parameters) (hne : a.parameters.toList ≠ [])
    (hlim : (similarScored t.store (rt.stringify ps) mcpType actionType).length ≤ limit)
    (hparse : ∀ r ∈ similarLimited t.store (rt.stringify ps) mcpType actionType limit,
      (parseSimilarEntry rt r).isSome = true) :
    (findSimilarActions t rt mcpType actionType ps limit).1.success = true ∧
    ∃ es, (findSimilarActions t rt mcpType actionType ps limit).1.similarActions =
        some es ∧ ∃ e ∈ es, e.action.id = a.id ∧ e.similarity = 1 := by
  have hsim1 : jaroWinklerDistance (rt.stringify ps) a.parameters = 1 := by
    rw [hser]
    exact jaroWinklerDistance_self _ hne
  have hgt : jaroWinklerDistance (rt.stringify ps) a.parameters > 7 / 10 := by
    rw [hsim1]; norm_num
  have hrow := mem_usedRows t.store a m ha hm he
  have hscored := mem_similarScored t.store (rt.stringify ps) mcpType actionType
    a m hrow hmt hat hgt
  have hlimmem := mem_similarLimited _ _ _ _ limit _ hscored hlim
  rcases mapOpt_isSome _ _ hparse with ⟨ys, hys⟩
  rcases Option.isSome_iff_exists.mp (hparse _ hlimmem) with ⟨e, hpe⟩
  have hmem := mapOpt_mem _ _ ys _ e hys hlimmem hpe
  have hfields := parseSimilarEntry_fields rt _ e hpe
  unfold findSimilarActions
  rw [if_pos ht, hys]
  refine ⟨by simp, ys, by simp, e, hmem, hfields.2, ?_⟩
  rw [hfields.1]
  exact hsim1

/-- C10: in `findSimilarActions` and `getUserActionHistory`, a stored
`parameters`/`result` string of any matched (post-limit) record that fails
to deserialize makes the entire call return a failure result, and a
successful result always deserialises every matched record (no partial
list with `success: true`). -/
theorem parse_failure_fails_whole_call (t : Tracker) (rt : JsRuntime)
    (mcpType actionType : String) (ps : Json) (limit : Nat) (userId : String)
    (limit2 : Nat) (ht : t.enabled = true) :
    ((∃ r ∈ similarLimited t.store (rt.stringify ps) mcpType actionType limit,
        rt.parse r.1.parameters = none ∨ rt.parse r.1.result = none) →
      (findSimilarActions t rt mcpType actionType ps limit).1 =
        ⟨false, none, some "Failed to find similar actions: error"⟩) ∧
    (∀ es, (findSimilarActions t rt mcpType actionType ps limit).1.similarActions =
        some es →
      es.length = (similarLimited t.store (rt.stringify ps) mcpType actionType
        limit).length) ∧
    ((∃ r ∈ historyLimited t.store userId limit2,
        rt.parse r.1.parameters = none ∨ rt.parse r.1.result = none) →
      (getUserActionHistory t rt userId limit2).1 =
        ⟨false, none, some "Failed to get user action history: error"⟩) ∧
    (∀ es, (getUserActionHistory t rt userId limit2).1.actions = some es →
      es.length = (historyLimited t.store userId limit2).length) := by
  refine ⟨?_, ?_, ?_, ?_⟩
  · rintro ⟨r, hr, hfail⟩
    have hnone := parseSimilarEntry_none rt r hfail
    have hmap := mapOpt_eq_none (parseSimilarEntry rt) _ r hr hnone
    unfold findSimilarActions
    rw [if_pos ht, hmap]
  · intro es hes
    unfold findSimilarActions at hes
    rw [if_pos ht] at hes
    cases hmap : mapOpt (parseSimilarEntry rt)
        (similarLimited t.store (rt.stringify ps) mcpType actionType limit) with
    | none => rw [hmap] at hes; exact absurd hes (by simp)
    | some ys =>
      rw [hmap] at hes
      simp only [Option.some.injEq] at hes
      subst hes
      exact mapOpt_some_length _ _ _ hmap
  · rintro ⟨r, hr, hfail⟩
    have hnone := parseHistoryEntry_none rt r hfail
    have hmap := mapOpt_eq_none (parseHistoryEntry rt) _ r hr hnone
    unfold getUserActionHistory
    rw [if_pos ht, hmap]
  · intro es hes
    unfold getUserActionHistory at hes
    rw [if_pos ht] at hes
    cases hmap : mapOpt (parseHistoryEntry rt) (historyLimited t.store userId limit2) with
    | none => rw [hmap] at hes; exact absurd hes (by simp)
    | some ys =>
      rw [hmap] at hes
      simp only [Option.some.injEq] at hes
      subst hes
      exact mapOpt_some_length _ _ _ hmap

/-! ### Concrete fixtures for witnesses and the C3 failing-input evaluation -/

/-- A trivial JS runtime: serialisation is the constant string "P", parsing
always succeeds with `null`. -/
def wRt : JsRuntime := ⟨fun _ => "P", fun _ => some Json.null⟩

/-- A runtime whose `JSON.parse` always throws (used to exhibit the
all-or-nothing deserialisation behaviour). -/
def wBadRt : JsRuntime := ⟨fun _ => "P", fun _ => none⟩

def wFt : String → ActionNode → Bool := fun _ _ => false

def wMcp : MCPNode := ⟨"m1", "DynamoDB", "Main", 0⟩

def wAction : ActionNode := ⟨0, "data_operation", "query_table", "P", "P", "success", 0⟩

/-- One user, one backend, one recorded action. -/
def wStore : GraphStore :=
  ⟨[⟨"u1", "User One", 0⟩], [wMcp], [wAction], [("u1", 0)], [(0, "m1")]⟩

def wTracker : Tracker := ⟨true, wStore, 1⟩

def wEntry : SimilarEntry :=
  ⟨⟨0, "data_operation", "query_table", Json.null, Json.null, "success", 0⟩, wMcp, 1⟩

def wArgs1 : RecordArgs :=
  ⟨"u9", "Alice", "m9", "DynamoDB", "Main", "data_operation", "query_table",
    Json.null, Json.null, "success"⟩

def wArgs2 : RecordArgs :=
  ⟨"u9", "Bob", "m9", "DynamoDB", "Main", "data_operation", "put_item",
    Json.null, Json.null, "success"⟩

/-- Store for the C3 failing input: anchor action (id 0) at t = 0 and a
successor action (id 1) by the same user against the same backend at
t = 86700 s, i.e. 1 day and 5 minutes later — 1445 minutes ≥ 30 minutes
after the anchor. -/
def c3Store : GraphStore :=
  ⟨[⟨"u1", "User One", 0⟩], [⟨"m1", "DynamoDB", "Main", 0⟩],
   [⟨0, "query", "query_table", "P", "R", "success", 0⟩,
    ⟨1, "export", "export_table", "P", "R", "success", 86700⟩],
   [("u1", 0), ("u1", 1)], [(0, "m1"), (1, "m1")]⟩

def c3Tracker : Tracker := ⟨true, c3Store, 2⟩

unseal Rat.add Rat.mul Rat.inv Rat.sub List.mergeSort List.merge in
theorem c3Eval :
    (suggestNextAction c3Tracker wRt "u1" "DynamoDB" "query" Json.null).1 =
      ⟨true, some [⟨"export", "export_table", [Json.null], 1⟩], none⟩ := rfl

/-- C3: evaluation of `suggestNextAction` at the failing input.  The only
successor is 86700 s = 1445 minutes ≥ 30 minutes after its anchor, so per
the claim (and the source's own comment, "within a reasonable time window
(30 minutes)") it must be excluded and the suggestion list must be empty;
the query's `timeDiff.minutes < 30` filter instead admits it (the
`minutes` accessor reads only the sub-day seconds group, 5 minutes here),
so it is aggregated with frequency 1. -/
theorem window_filter_admits_day_later_successor :
    (suggestNextAction c3Tracker wRt "u1" "DynamoDB" "query" Json.null).1 =
      ⟨true, some [⟨"export", "export_table", [Json.null], 1⟩], none⟩ ∧
    30 * 60 ≤ 86700 - 0 :=
  ⟨c3Eval, by decide⟩

/-! ### Witnesses -/

theorem upsert_leaves_existing_user_unchanged_witness :
    wTracker.enabled = true ∧ wArgs2.userId = wArgs1.userId ∧
    ((recordAction wTracker wArgs1 wRt 10 true).tracker.store.users.find?
        (fun u => u.id == wArgs1.userId)).isSome = true ∧
    (recordAction (recordAction wTracker wArgs1 wRt 10 true).tracker wArgs2 wRt
        20 true).tracker.store.users.find? (fun u => u.id == wArgs1.userId) =
      (recordAction wTracker wArgs1 wRt 10 true).tracker.store.users.find?
        (fun u => u.id == wArgs1.userId) :=
  ⟨rfl, rfl,
    (upsert_leaves_existing_user_unchanged wTracker wRt wArgs1 wArgs2 10 20 true
      rfl rfl).1,
    (upsert_leaves_existing_user_unchanged wTracker wRt wArgs1 wArgs2 10 20 true
      rfl rfl).2.1⟩

unseal Rat.add Rat.mul Rat.inv Rat.sub List.mergeSort List.merge in
theorem identical_parameters_score_one_witness :
    wTracker.enabled = true ∧ wAction ∈ wTracker.store.actions ∧
    wRt.stringify Json.null = wAction.parameters ∧
    ((findSimilarActions wTracker wRt "DynamoDB" "data_operation" Json.null
        5).1.success = true ∧
      ∃ es, (findSimilarActions wTracker wRt "DynamoDB" "data_operation" Json.null
          5).1.similarActions = some es ∧
        ∃ e ∈ es, e.action.id = wAction.id ∧ e.similarity = 1) :=
  ⟨rfl, List.mem_singleton.mpr rfl, rfl,
    identical_parameters_score_one wTracker wRt "DynamoDB" "data_operation"
      Json.null 5 wAction wMcp rfl (List.mem_singleton.mpr rfl)
      (List.mem_singleton.mpr rfl) (List.mem_singleton.mpr rfl) rfl rfl rfl
      (by decide) (by decide) (by decide)⟩

unseal Rat.add Rat.mul Rat.inv Rat.sub List.mergeSort List.merge in
theorem returned_similarity_above_threshold_witness :
    (findSimilarActions wTracker wRt "DynamoDB" "data_operation" Json.null
        5).1.similarActions = some [wEntry] ∧
    wEntry ∈ [wEntry] ∧ wEntry.similarity > 7 / 10 :=
  ⟨rfl, List.mem_singleton.mpr rfl,
    returned_similarity_above_threshold wTracker wRt "DynamoDB" "data_operation"
      Json.null 5 [wEntry] wEntry rfl (List.mem_singleton.mpr rfl)⟩

theorem missing_credentials_disable_everything_witness :
    ((truthy none && truthy (some "neo4j") && truthy (some "pw")) = false) ∧
    (mkTracker none (some "neo4j") (some "pw")).enabled = false ∧
    (exec wRt wFt (mkTracker none (some "neo4j") (some "pw"))
      (Op.findSimilar "DynamoDB" "data_operation" Json.null 5)).2.2 = 0 :=
  ⟨rfl,
    (missing_credentials_disable_everything none (some "neo4j") (some "pw")
      wRt wFt rfl).1,
    ((missing_credentials_disable_everything none (some "neo4j") (some "pw")
      wRt wFt rfl).2 (Op.findSimilar "DynamoDB" "data_operation" Json.null 5)).1⟩

theorem disabled_is_permanent_witness :
    (mkTracker none none none).enabled = false ∧
    ([Op.record wArgs1 5 true, Op.findSimilar "a" "b" Json.null 5].foldl
      (step wRt wFt) (mkTracker none none none)).enabled = false ∧
    traceAccesses wRt wFt (mkTracker none none none)
      [Op.record wArgs1 5 true, Op.findSimilar "a" "b" Json.null 5] = 0 :=
  ⟨rfl,
    (disabled_is_permanent wRt wFt (mkTracker none none none)
      [Op.record wArgs1 5 true, Op.findSimilar "a" "b" Json.null 5] rfl).1,
    (disabled_is_permanent wRt wFt (mkTracker none none none)
      [Op.record wArgs1 5 true, Op.findSimilar "a" "b" Json.null 5] rfl).2.2.1⟩

theorem disabled_record_succeeds_queries_fail_witness :
    (mkTracker none none none).enabled = false ∧
    (recordAction (mkTracker none none none) wArgs1 wRt 5 true).res =
      ⟨true, some 0, "Action tracking is disabled - action not recorded"⟩ ∧
    (findSimilarActions (mkTracker none none none) wRt "DynamoDB"
        "data_operation" Json.null 5).1 =
      ⟨false, none, some "Action tracking is disabled - cannot find similar actions"⟩ :=
  ⟨rfl,
    (disabled_record_succeeds_queries_fail (mkTracker none none none) wRt wFt rfl
      wArgs1 5 true 0 2 5 20 "DynamoDB" "data_operation" "u1" "query" "ctx"
      Json.null Json.null).1,
    (disabled_record_succeeds_queries_fail (mkTracker none none none) wRt wFt rfl
      wArgs1 5 true 0 2 5 20 "DynamoDB" "data_operation" "u1" "query" "ctx"
      Json.null Json.null).2.2.2.1⟩

unseal Rat.add Rat.mul Rat.inv Rat.sub List.mergeSort List.merge in
theorem parse_failure_fails_whole_call_witness :
    wTracker.enabled = true ∧
    (∃ r ∈ similarLimited wTracker.store (wBadRt.stringify Json.null) "DynamoDB"
        "data_operation" 5,
      wBadRt.parse r.1.parameters = none ∨ wBadRt.parse r.1.result = none) ∧
    (findSimilarActions wTracker wBadRt "DynamoDB" "data_operation" Json.null 5).1 =
      ⟨false, none, some "Failed to find similar actions: error"⟩ ∧
    (getUserActionHistory wTracker wBadRt "u1" 20).1 =
      ⟨false, none, some "Failed to get user action history: error"⟩ :=
  ⟨rfl,
    ⟨(wAction, wMcp, 1),
      (by rfl : similarLimited wTracker.store (wBadRt.stringify Json.null)
          "DynamoDB" "data_operation" 5 = [(wAction, wMcp, 1)]) ▸
        List.mem_singleton.mpr rfl,
      Or.inl rfl⟩,
    (parse_failure_fails_whole_call wTracker wBadRt "DynamoDB" "data_operation"
      Json.null 5 "u1" 20 rfl).1
      ⟨(wAction, wMcp, 1),
        (by rfl : similarLimited wTracker.store (wBadRt.stringify Json.null)
            "DynamoDB" "data_operation" 5 = [(wAction, wMcp, 1)]) ▸
          List.mem_singleton.mpr rfl,
        Or.inl rfl⟩,
    (parse_failure_fails_whole_call wTracker wBadRt "DynamoDB" "data_operation"
      Json.null 5 "u1" 20 rfl).2.2.1
      ⟨(wAction, wMcp),
        (by rfl : historyLimited wTracker.store "u1" 20 = [(wAction, wMcp)]) ▸
          List.mem_singleton.mpr rfl,
        Or.inl rfl⟩⟩
